import Mathlib

/-!
Shallow embedding of the payment-confirmation parsing and validation core of
the agenda-smart-mz repository (src/lib/paymentCodeExtractor.ts,
src/lib/whatsappTemplates.ts, src/lib/timeSlotUtils.ts).

Modelling conventions:
* JavaScript strings are embedded as `List Char` (`Str`); string literals are
  injected with `str`.
* JavaScript numbers are embedded as `ℚ`; a possibly-NaN number is `Option ℚ`
  (`none` = NaN) with comparison operators that are false on NaN.
* `null`/`undefined` results are `Option`.
* The provider regular expressions are implemented as explicit matching
  functions over `List Char`, following ECMAScript semantics (leftmost match,
  greedy quantifiers with backtracking, word boundaries, the `g` flag
  producing the list of successive non-overlapping matches).
-/

abbrev Str := List Char

def str (s : String) : Str := s.toList

def jsIsDigit (c : Char) : Bool := '0' ≤ c && c ≤ '9'

def isUpperAZ (c : Char) : Bool := 'A' ≤ c && c ≤ 'Z'

def isLowerAZ (c : Char) : Bool := 'a' ≤ c && c ≤ 'z'

/-- The ECMAScript word-character class `[A-Za-z0-9_]` used by word boundaries. -/
def isWordChar (c : Char) : Bool := isUpperAZ c || isLowerAZ c || jsIsDigit c || c = '_'

/-- The ECMAScript whitespace class (ASCII part plus no-break space). -/
def isSpaceJS (c : Char) : Bool :=
  c = ' ' || c = '\t' || c = '\n' || c = '\r' || c = '\x0b' || c = '\x0c' || c = ' '

def jsToUpper (s : Str) : Str := s.map Char.toUpper

def jsToLower (s : Str) : Str := s.map Char.toLower

def jsTrim (s : Str) : Str := ((s.dropWhile isSpaceJS).reverse.dropWhile isSpaceJS).reverse

/-- Case-insensitive "the first argument occurs at the head of the second". -/
def startsWithCI : Str → Str → Bool
  | [], _ => true
  | _ :: _, [] => false
  | n :: ns, h :: hs => (n.toLower = h.toLower) && startsWithCI ns hs

/-- `String.prototype.includes`: the first argument occurs somewhere in the second. -/
def containsSub (needle : Str) : Str → Bool
  | [] => needle.isEmpty
  | c :: rest => needle.isPrefixOf (c :: rest) || containsSub needle rest

def natFromDigits (ds : Str) : Nat := ds.foldl (fun acc c => acc * 10 + (c.toNat - 48)) 0

/-! ## Data model (paymentCodeExtractor.ts) -/

inductive PaymentMethod
  | mpesa
  | emola
  | unknown
  deriving DecidableEq

inductive Confidence
  | high
  | medium
  | low
  deriving DecidableEq

structure ExtractedCode where
  code : Str
  method : PaymentMethod
  confidence : Confidence
  deriving DecidableEq

structure ExtractedPaymentData where
  code : Option ExtractedCode
  amount : Option ℚ
  phone : Option Str
  method : PaymentMethod
  deriving DecidableEq

structure ValidationResult where
  isReady : Bool
  hasCode : Bool
  hasAmount : Bool
  hasRecipient : Bool
  amountMatches : Bool
  recipientMatches : Bool
  errorMessage : Option Str
  deriving DecidableEq

/-- `detectPaymentMethod`: keyword match on the lower-cased message. -/
def detectPaymentMethod (message : Str) : PaymentMethod :=
  let lowerMessage := jsToLower message
  if containsSub (str "m-pesa") lowerMessage || containsSub (str "mpesa") lowerMessage then
    .mpesa
  else if containsSub (str "emola") lowerMessage || containsSub (str "e-mola") lowerMessage then
    .emola
  else
    .unknown

/-! ## normalizePhone -/

/-- The cleaning steps of `normalizePhone`: `phone.replace(/[^\d+]/g, '')`
followed by dropping a leading `+`. -/
def jsCleanPhone (phone : Str) : Str :=
  let cleaned := phone.filter (fun c => jsIsDigit c || c = '+')
  if cleaned.head? = some '+' then cleaned.drop 1 else cleaned

/-- `normalizePhone` from paymentCodeExtractor.ts (lines 202-231).  Note that the
source returns a plain string on every path (empty string for empty input and
the cleaned string as-is when it cannot normalize); it never returns null. -/
def normalizePhone (phone : Str) : Str :=
  if phone = [] then []
  else
    let cleaned := jsCleanPhone phone
    if cleaned.length = 9 then str "258" ++ cleaned
    else if cleaned.length = 12 && cleaned.take 3 = str "258" then cleaned
    else if cleaned.length = 11 && cleaned.take 3 = str "258" then cleaned
    else cleaned

/-- Modelled from the spec: the claimed strict phone normalizer ("any other
length/prefix combination → null") that the specification describes for
`normalizePhone`; kept separate so the actual source function can be compared
against the claim's words. -/
def normalizePhoneSpec (phone : Str) : Option Str :=
  let digits := (if phone.head? = some '+' then phone.drop 1 else phone).filter jsIsDigit
  if digits.length = 9 then some (str "258" ++ digits)
  else if digits.length = 12 && digits.take 3 = str "258" then some digits
  else none

/-! ## validatePaymentData -/

def msgNoCode : Str := str "Código de transação não detectado. Cole a mensagem completa."

def msgNoAmount : Str := str "Valor não detectado na mensagem. Cole a mensagem completa do M-Pesa/eMola."

def msgNoRecipient : Str :=
  str "Número do destinatário não detectado. Cole a mensagem completa do M-Pesa/eMola."

def msgRecipientMismatch : Str :=
  str "Número do destinatário não corresponde ao número de pagamento do negócio."

def pad2 (n : Nat) : Str := if n < 10 then '0' :: Nat.toDigits 10 n else Nat.toDigits 10 n

/-- `Number.prototype.toFixed(2)`: render a rational with two decimal places
(round half away from zero). -/
def toFixed2 (q : ℚ) : Str :=
  let n : Nat := (Int.floor (|q| * 100 + 1/2)).toNat
  (if q < 0 then ['-'] else []) ++ Nat.toDigits 10 (n / 100) ++ '.' :: pad2 (n % 100)

/-- The template literal of the amount-mismatch branch; a missing detected
amount renders as the string "undefined" as in JavaScript. -/
def msgAmountMismatch (expected : ℚ) (detected : Option ℚ) : Str :=
  str "Valor não corresponde. Esperado: " ++ toFixed2 expected ++ str " MZN, Detectado: " ++
    (match detected with | some d => toFixed2 d | none => str "undefined") ++ str " MZN."

/-- `validatePaymentData` from paymentCodeExtractor.ts (lines 263-307). -/
def validatePaymentData (extracted : ExtractedPaymentData) (expectedAmount : ℚ)
    (expectedRecipientPhone : Str) : ValidationResult :=
  let normalizedExpectedPhone := normalizePhone expectedRecipientPhone
  let hasCode := extracted.code.isSome
  let hasAmount := extracted.amount.isSome
  let hasRecipient := extracted.phone.isSome
  -- (extracted.amount || 0): on a number, `x || 0` is `x` for nonzero x and `0`
  -- for 0 or null, which agrees with `getD 0`.
  let amountMatches := hasAmount && decide (|extracted.amount.getD 0 - expectedAmount| < 1/2)
  let recipientMatches := hasRecipient && decide (extracted.phone = some normalizedExpectedPhone)
  let errorMessage : Option Str :=
    if hasCode = false then some msgNoCode
    else if hasAmount = false then some msgNoAmount
    else if hasRecipient = false then some msgNoRecipient
    else if amountMatches = false then some (msgAmountMismatch expectedAmount extracted.amount)
    else if recipientMatches = false then some msgRecipientMismatch
    else none
  let isReady := hasCode && hasAmount && hasRecipient && amountMatches && recipientMatches
  { isReady := isReady
    hasCode := hasCode
    hasAmount := hasAmount
    hasRecipient := hasRecipient
    amountMatches := amountMatches
    recipientMatches := recipientMatches
    errorMessage := errorMessage }

/-! ## Claims C1, C2, C3, C5 -/

/-- C1: for every ExtractedPaymentData, expected amount and expected recipient,
the ValidationResult of `validatePaymentData` satisfies
`isReady = (hasCode && hasAmount && hasRecipient && amountMatches && recipientMatches)`
over the sub-check fields of that same result. -/
theorem C1_isReady_is_conjunction (e : ExtractedPaymentData) (a : ℚ) (p : Str) :
    (validatePaymentData e a p).isReady =
      ((validatePaymentData e a p).hasCode && (validatePaymentData e a p).hasAmount &&
        (validatePaymentData e a p).hasRecipient && (validatePaymentData e a p).amountMatches &&
        (validatePaymentData e a p).recipientMatches) := rfl

/-- C2: `amountMatches` holds iff an amount was extracted and the absolute
difference to the expected amount is strictly below 0.50; with expected 100.00,
a detected 100.49 matches and a detected 100.51 does not. -/
theorem C2_amount_tolerance :
    (∀ (e : ExtractedPaymentData) (a : ℚ) (p : Str),
        ((validatePaymentData e a p).amountMatches = true ↔
          ∃ x : ℚ, e.amount = some x ∧ |x - a| < 1/2))
    ∧ (validatePaymentData ⟨none, some (10049/100), none, .unknown⟩ 100 []).amountMatches = true
    ∧ (validatePaymentData ⟨none, some (10051/100), none, .unknown⟩ 100 []).amountMatches
        = false := by
  have main : ∀ (e : ExtractedPaymentData) (a : ℚ) (p : Str),
      ((validatePaymentData e a p).amountMatches = true ↔
        ∃ x : ℚ, e.amount = some x ∧ |x - a| < 1/2) := by
    intro e a p
    cases h : e.amount with
    | none => simp [validatePaymentData, h]
    | some x => simp [validatePaymentData, h]
  refine ⟨main, (main _ _ _).mpr ⟨10049/100, rfl, by rw [abs_lt]; constructor <;> norm_num⟩, ?_⟩
  cases hb : (validatePaymentData ⟨none, some (10051/100), none, .unknown⟩ 100 []).amountMatches
  · rfl
  · exfalso
    obtain ⟨x, hx, hlt⟩ := (main _ _ _).mp hb
    injection hx with h
    subst h
    rw [abs_lt] at hlt
    norm_num at hlt

/-- C3 counterexample: on input "12345" (five digits) the source's
`normalizePhone` returns the cleaned string "12345" unchanged, while the
claimed behaviour ("any other length/prefix combination returns null")
would reject it. -/
theorem C3_counterexample :
    normalizePhone (str "12345") = str "12345" ∧ normalizePhoneSpec (str "12345") = none := by
  decide

/-- C3 (amended): `normalizePhone` strips every character other than digits and
'+', drops a leading '+', prepends "258" when exactly 9 digits remain, and on
every other input returns the cleaned string itself (never null): the
12-digit-258 branch, the 11-digit-258 branch and the fall-through all return
the cleaned string unchanged, and empty input yields the empty string. -/
theorem C3_normalizePhone_amended (p : Str) :
    normalizePhone p =
      (if (jsCleanPhone p).length = 9 then str "258" ++ jsCleanPhone p else jsCleanPhone p) := by
  by_cases hp : p = []
  · subst hp; simp [normalizePhone, jsCleanPhone]
  · simp only [normalizePhone, hp, if_false]
    split_ifs <;> simp_all

/-- C5: `errorMessage` is the message of the first failing check in the fixed
order (missing code, missing amount, missing recipient, amount mismatch,
recipient mismatch); it is null exactly when all five checks pass, and when
both code and amount are missing the message is the missing-code one. -/
theorem C5_error_message_priority (e : ExtractedPaymentData) (a : ℚ) (p : Str) :
    ((validatePaymentData e a p).errorMessage = none ↔ (validatePaymentData e a p).isReady = true)
    ∧ ((validatePaymentData e a p).hasCode = false →
        (validatePaymentData e a p).errorMessage = some msgNoCode)
    ∧ ((validatePaymentData e a p).hasCode = true →
        (validatePaymentData e a p).hasAmount = false →
        (validatePaymentData e a p).errorMessage = some msgNoAmount)
    ∧ ((validatePaymentData e a p).hasCode = true →
        (validatePaymentData e a p).hasAmount = true →
        (validatePaymentData e a p).hasRecipient = false →
        (validatePaymentData e a p).errorMessage = some msgNoRecipient)
    ∧ ((validatePaymentData e a p).hasCode = true →
        (validatePaymentData e a p).hasAmount = true →
        (validatePaymentData e a p).hasRecipient = true →
        (validatePaymentData e a p).amountMatches = false →
        (validatePaymentData e a p).errorMessage = some (msgAmountMismatch a e.amount))
    ∧ ((validatePaymentData e a p).hasCode = true →
        (validatePaymentData e a p).hasAmount = true →
        (validatePaymentData e a p).hasRecipient = true →
        (validatePaymentData e a p).amountMatches = true →
        (validatePaymentData e a p).recipientMatches = false →
        (validatePaymentData e a p).errorMessage = some msgRecipientMismatch) := by
  simp only [validatePaymentData]
  refine ⟨?_, ?_, ?_, ?_, ?_, ?_⟩ <;> split_ifs <;> simp_all [Option.isSome_iff_ne_none]

/-- C5 witness: with both the code and the amount missing, the error message is
the missing-code one (instantiating the second conjunct at a concrete input). -/
theorem C5_error_message_priority_witness :
    (validatePaymentData ⟨none, none, none, .unknown⟩ 50 []).hasCode = false ∧
      (validatePaymentData ⟨none, none, none, .unknown⟩ 50 []).errorMessage = some msgNoCode :=
  ⟨by decide, (C5_error_message_priority ⟨none, none, none, .unknown⟩ 50 []).2.1 (by decide)⟩

/-! ## validateManualCode -/

def isAlnumUpper (c : Char) : Bool := isUpperAZ c || jsIsDigit c

/-- The eMola character class `[A-Z0-9.]`. -/
def isEmolaClass (c : Char) : Bool := isUpperAZ c || jsIsDigit c || c = '.'

/-- Take exactly `n` decimal digits from the front, returning them and the rest. -/
def takeDigitsN : Nat → Str → Option (Str × Str)
  | 0, s => some ([], s)
  | _ + 1, [] => none
  | n + 1, c :: rest =>
    if jsIsDigit c then (takeDigitsN n rest).map (fun pr => (c :: pr.1, pr.2)) else none

/-- Parse the exact eMola code shape `<p1><p2>\d{6}\.\d{4}\.[A-Z]\d{5}` at the
front of the input, returning the consumed token and the remainder. -/
def emolaShape (p1 p2 : Char) (s : Str) : Option (Str × Str) :=
  match s with
  | a :: b :: rest =>
    if a = p1 && b = p2 then do
      let (d1, r1) ← takeDigitsN 6 rest
      match r1 with
      | '.' :: r2 => do
        let (d2, r3) ← takeDigitsN 4 r2
        match r3 with
        | '.' :: l0 :: r4 =>
          if isUpperAZ l0 then do
            let (d3, r5) ← takeDigitsN 5 r4
            pure (a :: b :: (d1 ++ '.' :: (d2 ++ '.' :: l0 :: d3)), r5)
          else none
        | _ => none
      | _ => none
    else none
  | _ => none

/-- Anchored test `^<p1><p2>\d{6}\.\d{4}\.[A-Z]\d{5}$`. -/
def exactEmolaTest (p1 p2 : Char) (u : Str) : Bool :=
  match emolaShape p1 p2 u with
  | some (_, []) => true
  | _ => false

/-- Anchored test for `^(PP|CI)[A-Z0-9.]{6,}$`. -/
def looseEmolaTest (u : Str) : Bool :=
  match u with
  | p1 :: p2 :: rest =>
    ((p1 = 'P' && p2 = 'P') || (p1 = 'C' && p2 = 'I')) && 6 ≤ rest.length &&
      rest.all isEmolaClass
  | _ => false

structure ManualCodeResult where
  isValid : Bool
  method : Option PaymentMethod
  deriving DecidableEq

/-- `validateManualCode` from paymentCodeExtractor.ts (lines 312-340).  Note
that the too-short rejection (`upperCode.length < 10`) runs before any of the
pattern checks. -/
def validateManualCode (code : Str) : ManualCodeResult :=
  let upperCode := jsTrim (jsToUpper code)
  if upperCode.isEmpty || decide (upperCode.length < 10) then ⟨false, none⟩
  else if exactEmolaTest 'P' 'P' upperCode then ⟨true, some .emola⟩
  else if exactEmolaTest 'C' 'I' upperCode then ⟨true, some .emola⟩
  else if looseEmolaTest upperCode then ⟨true, some .emola⟩
  else if (decide (10 ≤ upperCode.length) && decide (upperCode.length ≤ 12) &&
      upperCode.all isAlnumUpper && upperCode.any isUpperAZ && upperCode.any jsIsDigit) &&
      !(upperCode.take 2 = str "PP" || upperCode.take 2 = str "CI") then ⟨true, some .mpesa⟩
  else ⟨false, none⟩

/-- C6 counterexample: "PPABCDEF" (length 8) matches the loose eMola grammar
(PP plus six alphanumeric-or-dot characters) but `validateManualCode` rejects
it, because the shorter-than-10 rejection runs before the loose eMola rule. -/
theorem C6_counterexample :
    validateManualCode (str "PPABCDEF") = ⟨false, none⟩ ∧
      looseEmolaTest (jsTrim (jsToUpper (str "PPABCDEF"))) = true := by
  decide

/-- C6 (amended): for every input whose trimmed upper-cased form matches the
loose eMola grammar AND has length at least 10, `validateManualCode` returns
isValid = true with method = emola; shorter loose-eMola inputs are rejected by
the up-front length guard. -/
theorem C6_loose_emola_amended (s : Str) (h1 : 10 ≤ (jsTrim (jsToUpper s)).length)
    (h2 : looseEmolaTest (jsTrim (jsToUpper s)) = true) :
    validateManualCode s = ⟨true, some .emola⟩ := by
  have hne : (jsTrim (jsToUpper s)).isEmpty = false := by
    cases h : jsTrim (jsToUpper s)
    · rw [h] at h1; simp at h1
    · rfl
  simp only [validateManualCode]
  rw [if_neg (by simp [hne]; omega)]
  split_ifs <;> simp_all

/-- C6 witness: the amended theorem applied to the concrete loose-eMola code
"PP260116.2026.W22156". -/
theorem C6_loose_emola_amended_witness :
    10 ≤ (jsTrim (jsToUpper (str "PP260116.2026.W22156"))).length ∧
      looseEmolaTest (jsTrim (jsToUpper (str "PP260116.2026.W22156"))) = true ∧
      validateManualCode (str "PP260116.2026.W22156") = ⟨true, some .emola⟩ :=
  ⟨by decide, by decide, C6_loose_emola_amended _ (by decide) (by decide)⟩

/-! ## generateWhatsAppLink (whatsappTemplates.ts) -/

def hexDigitUpper (n : Nat) : Char := if n < 10 then Char.ofNat (48 + n) else Char.ofNat (55 + n)

def utf8Bytes (c : Char) : List Nat :=
  let n := c.toNat
  if n < 128 then [n]
  else if n < 2048 then [192 + n / 64, 128 + n % 64]
  else if n < 65536 then [224 + n / 4096, 128 + (n / 64) % 64, 128 + n % 64]
  else [240 + n / 262144, 128 + (n / 4096) % 64, 128 + (n / 64) % 64, 128 + n % 64]

/-- The characters `encodeURIComponent` leaves unescaped:
`A-Z a-z 0-9 - _ . ! ~ * ' ( )`. -/
def isUnreservedURI (c : Char) : Bool :=
  isUpperAZ c || isLowerAZ c || jsIsDigit c || c = '-' || c = '_' || c = '.' || c = '!' ||
    c = '~' || c = '*' || c.toNat = 39 || c = '(' || c = ')'

/-- `encodeURIComponent`: unreserved characters pass through, everything else is
percent-encoded as upper-case hex UTF-8 bytes. -/
def encodeURIComponent (s : Str) : Str :=
  s.flatMap fun c =>
    if isUnreservedURI c then [c]
    else (utf8Bytes c).flatMap fun b => ['%', hexDigitUpper (b / 16), hexDigitUpper (b % 16)]

/-- `generateWhatsAppLink` from whatsappTemplates.ts (lines 140-143). -/
def generateWhatsAppLink (phoneNumber message : Str) : Str :=
  let cleanNumber := phoneNumber.filter jsIsDigit
  str "https://wa.me/" ++ cleanNumber ++ str "?text=" ++ encodeURIComponent message

/-- C9 counterexample: for the phone "+1 23" the link's phone segment is "123",
which is not a 12-digit number preceded by 258 — `generateWhatsAppLink` performs
no 258/12-digit normalization, contradicting the claim's universally quantified
shape assertion. -/
theorem C9_counterexample :
    generateWhatsAppLink (str "+1 23") (str "hi") = str "https://wa.me/123?text=hi" ∧
      ¬ ((str "+1 23").filter jsIsDigit).length = 12 := by
  decide

/-- C9 (amended): for every phone number and message the result is exactly
"https://wa.me/" followed by the phone number reduced to digits only (hence
containing no '+' and no spaces), then "?text=" followed by the URL-encoded
message; the digit segment is a 12-digit 258-prefixed number exactly when the
input phone's digits already are. -/
theorem C9_link_format_amended (ph msg : Str) :
    generateWhatsAppLink ph msg =
      str "https://wa.me/" ++ ph.filter jsIsDigit ++ str "?text=" ++ encodeURIComponent msg ∧
    (ph.filter jsIsDigit).all jsIsDigit = true := by
  exact ⟨rfl, by simp [List.all_eq_true]⟩

/-! ## Time slots (timeSlotUtils.ts)

JavaScript numbers appearing in `filterAvailableSlots` are modelled as
`Option ℚ` where `none` is NaN; `<`-comparisons against NaN are false. -/

/-- `parseInt(s, 10)`: skip leading whitespace, optional sign, then the longest
run of leading decimal digits; NaN (`none`) when no digit is found. -/
def parseIntJS (s : Str) : Option ℤ :=
  let t := s.dropWhile isSpaceJS
  let neg := t.head? = some '-'
  let t2 := if t.head? = some '-' || t.head? = some '+' then t.drop 1 else t
  let digits := t2.takeWhile jsIsDigit
  if digits.isEmpty then none
  else some (if neg then -(natFromDigits digits : ℤ) else (natFromDigits digits : ℤ))

/-- `Number(s)`: trimmed empty string is 0; otherwise an optional sign followed
by `digits`, `digits.digits`, `digits.` or `.digits`.  Exotic numeric literals
(hex, exponents, Infinity) are outside the modelled fragment and map to NaN. -/
def numberJS (s : Str) : Option ℚ :=
  let t := jsTrim s
  if t.isEmpty then some 0
  else
    let neg := t.head? = some '-'
    let t2 := if t.head? = some '-' || t.head? = some '+' then t.drop 1 else t
    let intDigits := t2.takeWhile jsIsDigit
    let rest := t2.drop intDigits.length
    let value : Option ℚ :=
      match rest with
      | [] => if intDigits.isEmpty then none else some (natFromDigits intDigits : ℚ)
      | '.' :: fr =>
        let fracDigits := fr.takeWhile jsIsDigit
        let rest2 := fr.drop fracDigits.length
        if rest2.isEmpty && !(intDigits.isEmpty && fracDigits.isEmpty) then
          some ((natFromDigits intDigits : ℚ) +
            (natFromDigits fracDigits : ℚ) / (10 ^ fracDigits.length : ℕ))
        else none
      | _ => none
    value.map fun v => if neg then -v else v

/-- `time.split(':').map(Number)` destructured as `[h, m]`, then `h * 60 + m`;
a missing minutes part (undefined) and NaN both propagate to NaN. -/
def minutesJS (time : Str) : Option ℚ :=
  match (time.splitOn ':').map numberJS with
  | h? :: m? :: _ => do
    let h ← h?
    let m ← m?
    pure (h * 60 + m)
  | _ => none

/-- JavaScript `<` on possibly-NaN numbers: false whenever an operand is NaN. -/
def jsLT (a b : Option ℚ) : Bool :=
  match a, b with
  | some x, some y => decide (x < y)
  | _, _ => false

structure ExistingAppointment where
  appointment_time : Str
  duration : ℚ
  deriving DecidableEq

/-- `filterAvailableSlots` from timeSlotUtils.ts (lines 115-154).  `closingTime`
is `string | null | undefined`; the source's `if (!closingTime)` is modelled by
the `none` case plus the empty-string test. -/
def filterAvailableSlots (allSlots : List Str) (existingAppointments : List ExistingAppointment)
    (serviceDuration : ℚ) (closingTime : Option Str) : List Str :=
  match closingTime with
  | none => allSlots
  | some c =>
    if c.isEmpty then allSlots
    else
      match c.splitOn ':' with
      | p0 :: p1 :: _ =>
        let closingMinutes : Option ℚ := do
          let h ← parseIntJS p0
          let mn ← parseIntJS p1
          pure ((h : ℚ) * 60 + (mn : ℚ))
        let occupiedSlots : List (Option ℚ × Option ℚ) := existingAppointments.map fun apt =>
          (minutesJS apt.appointment_time,
            (minutesJS apt.appointment_time).map (· + apt.duration))
        allSlots.filter fun slot =>
          let slotStart := minutesJS slot
          let slotEnd := slotStart.map (· + serviceDuration)
          if jsLT closingMinutes slotEnd then false
          else !(occupiedSlots.any fun occ => jsLT slotStart occ.2 && jsLT occ.1 slotEnd)
      | _ => allSlots

lemma filter_singleton_of_pred_false (p : Str → Bool) (a : Str) (h : p a = false) :
    List.filter p [a] = [] := by
  simp [List.filter_cons, h]

/-- C10 counterexample: with the malformed closing time "aa:bb" (two parts, both
parsing to NaN) the slot list is NOT returned unchanged: the closing-time cutoff
is skipped (NaN comparisons are false) but conflict filtering still removes the
occupied slot 08:00. -/
theorem C10_counterexample :
    filterAvailableSlots [str "08:00"] [⟨str "08:00", 30⟩] 30 (some (str "aa:bb")) = [] ∧
      parseIntJS (str "aa") = none := by
  refine ⟨?_, rfl⟩
  have hu : decide ((((8:ℕ):ℚ) * 60 + ((0:ℕ):ℚ)) < ((8:ℕ):ℚ) * 60 + ((0:ℕ):ℚ) + 30) = true := by
    simp only [decide_eq_true_eq]
    norm_num
  have e0 : (str "aa:bb").isEmpty = false := rfl
  have e1 : (str "aa:bb").splitOn ':' = [str "aa", str "bb"] := rfl
  have e2 : parseIntJS (str "aa") = none := rfl
  have e3 : minutesJS (str "08:00") = some (((8:ℕ):ℚ) * 60 + ((0:ℕ):ℚ)) := rfl
  simp only [filterAvailableSlots, e0, e1, e2, Bool.false_eq_true, if_false,
    Option.bind_eq_bind, Option.none_bind, List.map_cons, List.map_nil, e3,
    List.filter_cons, List.filter_nil, Option.map_some', List.any_cons, List.any_nil,
    Bool.or_false]
  rw [show jsLT none (some (((8:ℕ):ℚ) * 60 + ((0:ℕ):ℚ) + 30)) = false from rfl,
    show jsLT (some (((8:ℕ):ℚ) * 60 + ((0:ℕ):ℚ)))
      (some (((8:ℕ):ℚ) * 60 + ((0:ℕ):ℚ) + 30)) =
      decide ((((8:ℕ):ℚ) * 60 + ((0:ℕ):ℚ)) < ((8:ℕ):ℚ) * 60 + ((0:ℕ):ℚ) + 30) from rfl, hu]
  simp

/-- C10 (amended): when `closingTime` is null the slot list is returned
unchanged, and likewise when it splits into fewer than two ':'-parts (which
covers the empty string); when the closing time has two parts that parse to
numbers, every slot kept by `filterAvailableSlots` ends no later than the
closing time in minutes of day and overlaps no existing appointment's interval.
(When the parts are present but non-numeric, the closing-time cutoff is vacuous
but conflict filtering still applies — see the counterexample.) -/
theorem C10_filterAvailableSlots_amended :
    (∀ (slots : List Str) (appts : List ExistingAppointment) (dur : ℚ),
        filterAvailableSlots slots appts dur none = slots)
    ∧ (∀ (slots : List Str) (appts : List ExistingAppointment) (dur : ℚ) (c : Str),
        (c.splitOn ':').length < 2 → filterAvailableSlots slots appts dur (some c) = slots)
    ∧ (∀ (slots : List Str) (appts : List ExistingAppointment) (dur : ℚ) (c : Str)
        (p0 p1 : Str) (ps : List Str) (h mn : ℤ),
        c.splitOn ':' = p0 :: p1 :: ps →
        parseIntJS p0 = some h → parseIntJS p1 = some mn →
        ∀ slot ∈ filterAvailableSlots slots appts dur (some c),
          ∀ ms : ℚ, minutesJS slot = some ms →
            ms + dur ≤ (h : ℚ) * 60 + (mn : ℚ) ∧
            ∀ apt ∈ appts, ∀ ma : ℚ, minutesJS apt.appointment_time = some ma →
              ¬ (ms < ma + apt.duration ∧ ma < ms + dur)) := by
  refine ⟨fun slots appts dur => rfl, ?_, ?_⟩
  · intro slots appts dur c hlen
    rcases hs : c.splitOn ':' with _ | ⟨p0, _ | ⟨p1, ps⟩⟩
    · simp only [filterAvailableSlots, hs, ite_self]
    · simp only [filterAvailableSlots, hs, ite_self]
    · rw [hs] at hlen
      simp only [List.length_cons] at hlen
      omega
  · intro slots appts dur c p0 p1 ps h mn hsplit hp0 hp1 slot hmem ms hms
    have hc : c.isEmpty = false := by
      cases c
      · rw [show (List.splitOn ':' ([] : Str)) = [[]] from rfl] at hsplit
        simp at hsplit
      · rfl
    simp only [filterAvailableSlots, hc, Bool.false_eq_true, if_false, hsplit, hp0, hp1,
      Option.bind_eq_bind, Option.some_bind, Option.pure_def] at hmem
    obtain ⟨hmem', hpred⟩ := List.mem_filter.mp hmem
    rw [hms] at hpred
    simp only [Option.map_some'] at hpred
    cases hlt : jsLT (some ((h : ℚ) * 60 + (mn : ℚ))) (some (ms + dur)) with
    | true => rw [hlt] at hpred; simp at hpred
    | false =>
      rw [hlt] at hpred
      simp only [Bool.false_eq_true, if_false, Bool.not_eq_true'] at hpred
      constructor
      · have hnlt : ¬ ((h : ℚ) * 60 + (mn : ℚ) < ms + dur) := by
          intro hlt2
          rw [show jsLT (some ((h : ℚ) * 60 + (mn : ℚ))) (some (ms + dur)) =
            decide ((h : ℚ) * 60 + (mn : ℚ) < ms + dur) from rfl] at hlt
          simp [hlt2] at hlt
        linarith
      · intro apt hapt ma hma hconf
        have hocc : (some ma, some (ma + apt.duration)) ∈
            appts.map (fun apt => (minutesJS apt.appointment_time,
              (minutesJS apt.appointment_time).map (· + apt.duration))) := by
          refine List.mem_map.mpr ⟨apt, hapt, ?_⟩
          rw [hma]
          rfl
        have hany := List.any_eq_false.mp hpred _ hocc
        apply hany
        rw [show jsLT (some ms) (some (ma + apt.duration)) =
            decide (ms < ma + apt.duration) from rfl,
          show jsLT (some ma) (some (ms + dur)) = decide (ma < ms + dur) from rfl]
        simp [hconf.1, hconf.2]

/-- C10 witness: the amended theorem applied to closing time "18:00", one slot
08:00, one existing appointment at 09:00 of 30 minutes, service 30 minutes. -/
theorem C10_filterAvailableSlots_amended_witness :
    ((str "18:00").splitOn ':' = [str "18", str "00"] ∧
      parseIntJS (str "18") = some 18 ∧ parseIntJS (str "00") = some 0) ∧
    (∀ slot ∈ filterAvailableSlots [str "08:00"]
        [⟨str "09:00", 30⟩] 30 (some (str "18:00")),
      ∀ ms : ℚ, minutesJS slot = some ms →
        ms + 30 ≤ ((18:ℤ) : ℚ) * 60 + ((0:ℤ) : ℚ) ∧
        ∀ apt ∈ ([⟨str "09:00", 30⟩] : List ExistingAppointment),
          ∀ ma : ℚ, minutesJS apt.appointment_time = some ma →
            ¬ (ms < ma + apt.duration ∧ ma < ms + 30)) :=
  ⟨⟨rfl, rfl, rfl⟩,
    C10_filterAvailableSlots_amended.2.2 [str "08:00"] [⟨str "09:00", 30⟩] 30 (str "18:00")
      (str "18") (str "00") [] 18 0 rfl rfl rfl⟩

/-! ## Transaction-code extraction (paymentCodeExtractor.ts lines 36-148)

Each provider regular expression is implemented as an explicit matcher.
`scanFirstTok` scans for the leftmost match while tracking whether the
previous character is a word character (for `\b`). -/

def scanFirstTok (tryAt : Bool → Str → Option Str) : Bool → Str → Option Str
  | prevW, [] => tryAt prevW []
  | prevW, c :: rest =>
    match tryAt prevW (c :: rest) with
    | some t => some t
    | none => scanFirstTok tryAt (isWordChar c) rest

def scanFirstPlain (tryAt : Str → Option Str) : Str → Option Str
  | [] => tryAt []
  | c :: rest =>
    match tryAt (c :: rest) with
    | some t => some t
    | none => scanFirstPlain tryAt rest

/-- A `\b` directly after a word character: the next character must not be a
word character (or the string ends). -/
def boundaryAfterWord (rest : Str) : Bool :=
  match rest with
  | [] => true
  | c :: _ => !isWordChar c

/-- First match of `/\bPP\d{6}\.\d{4}\.[A-Z]\d{5}\b/gi` (EMOLA_PATTERN_A) on the
(already upper-cased) input. -/
def emolaMatchA (s : Str) : Option Str :=
  scanFirstTok (fun prevW suf =>
    if prevW then none
    else
      match emolaShape 'P' 'P' suf with
      | some (tok, rest) => if boundaryAfterWord rest then some tok else none
      | none => none) false s

/-- First match of `/\bCI\d{6}\.\d{4}\.[A-Z]\d{5}\b/gi` (EMOLA_PATTERN_B). -/
def emolaMatchB (s : Str) : Option Str :=
  scanFirstTok (fun prevW suf =>
    if prevW then none
    else
      match emolaShape 'C' 'I' suf with
      | some (tok, rest) => if boundaryAfterWord rest then some tok else none
      | none => none) false s

/-- `[A-Z0-9]` under the `i` flag: letters of either case or digits. -/
def isAlnumCI (c : Char) : Bool := isUpperAZ c || isLowerAZ c || jsIsDigit c

/-- Match of `/Confirmado\s+([A-Z0-9]{10,12})/i` at the start of the suffix:
the literal word (case-insensitively), at least one whitespace, then greedily
10-12 alphanumerics; the returned value is the captured group. -/
def mpesaConfirmedAt (suf : Str) : Option Str :=
  if startsWithCI (str "confirmado") suf then
    let rest := suf.drop 10
    let ws := rest.takeWhile isSpaceJS
    if ws.isEmpty then none
    else
      let rest2 := rest.drop ws.length
      let tok := (rest2.takeWhile isAlnumCI).take 12
      if 10 ≤ tok.length then some tok else none
  else none

/-- Leftmost match of MPESA_PATTERN_CONFIRMED on the original message. -/
def mpesaConfirmedMatch (message : Str) : Option Str := scanFirstPlain mpesaConfirmedAt message

/-- Backtracking for the greedy `[A-Z0-9.]{6,}` of EMOLA_PATTERN_GENERIC
followed by `\b`: the largest cut `k` (counting down from the full class run)
with `6 ≤ k` such that a word boundary holds between the last consumed
character and the following one. -/
def bestCutGo (run after : Str) : Nat → Option Nat
  | 0 => none
  | k + 1 =>
    if k + 1 < 6 then none
    else
      let lastW := match run[k]? with | some c => isWordChar c | none => false
      let nextW := match (if k + 1 < run.length then run[k + 1]? else after.head?) with
        | some c => isWordChar c
        | none => false
      if lastW != nextW then some (k + 1) else bestCutGo run after k

/-- First match of `/\b(?:PP|CI)[A-Z0-9.]{6,}\b/gi` (EMOLA_PATTERN_GENERIC) on
the (already upper-cased) input. -/
def emolaGenericMatch (s : Str) : Option Str :=
  scanFirstTok (fun prevW suf =>
    if prevW then none
    else
      match suf with
      | p1 :: p2 :: rest =>
        if (p1 = 'P' && p2 = 'P') || (p1 = 'C' && p2 = 'I') then
          let run := rest.takeWhile isEmolaClass
          let after := rest.drop run.length
          match bestCutGo run after run.length with
          | some k => some (p1 :: p2 :: run.take k)
          | none => none
        else none
      | _ => none) false s

/-- Single pass collecting the maximal `[A-Z0-9]` runs that are flanked by word
boundaries.  `startOk` records, while outside a run, whether the previous
character is a non-word character (so a run starting here has `\b` before it),
and, while inside a run, the value recorded at the run's start. -/
def mpesaRuns (startOk : Bool) (curRev : Str) : Str → List Str
  | [] => if !curRev.isEmpty && startOk then [curRev.reverse] else []
  | c :: rest =>
    if isAlnumUpper c then mpesaRuns startOk (c :: curRev) rest
    else
      (if !curRev.isEmpty && startOk && !isWordChar c then [curRev.reverse] else []) ++
        mpesaRuns (!isWordChar c) [] rest

/-- All matches of `/\b[A-Z0-9]{10,12}\b/g` (MPESA_PATTERN_FALLBACK): the
boundary-flanked maximal runs of length 10-12 (inside a longer run the greedy
quantifier always fails the trailing `\b`, and interior starts fail the
leading `\b`, so longer runs produce no match). -/
def mpesaFallbackMatches (s : Str) : List Str :=
  (mpesaRuns true [] s).filter fun r => decide (10 ≤ r.length) && decide (r.length ≤ 12)

/-- The `validCodes` filter of the fallback tier: at least one letter, at least
one digit, and not starting with PP or CI. -/
def mpesaFallbackValid (s : Str) : List Str :=
  (mpesaFallbackMatches s).filter fun code =>
    code.any isUpperAZ && code.any jsIsDigit &&
      !(decide (code.take 2 = str "PP") || decide (code.take 2 = str "CI"))

/-- `extractTransactionCode` from paymentCodeExtractor.ts (lines 87-148). -/
def extractTransactionCode (message : Str) : Option ExtractedCode :=
  let upperMessage := jsToUpper message
  let detectedMethod := detectPaymentMethod message
  match emolaMatchA upperMessage with
  | some tok =>
    some ⟨tok, if detectedMethod ≠ .unknown then detectedMethod else .emola, .high⟩
  | none =>
    match emolaMatchB upperMessage with
    | some tok =>
      some ⟨tok, if detectedMethod ≠ .unknown then detectedMethod else .emola, .high⟩
    | none =>
      match mpesaConfirmedMatch message with
      | some tok =>
        some ⟨jsToUpper tok, if detectedMethod ≠ .unknown then detectedMethod else .mpesa, .high⟩
      | none =>
        match emolaGenericMatch upperMessage with
        | some tok =>
          some ⟨tok, if detectedMethod ≠ .unknown then detectedMethod else .emola, .medium⟩
        | none =>
          match mpesaFallbackValid upperMessage with
          | tok :: _ =>
            some ⟨tok, if detectedMethod ≠ .unknown then detectedMethod else .mpesa, .medium⟩
          | [] => none

/-- C4: `extractTransactionCode` tries the five tiers in strict priority order
(exact eMola PP, exact eMola CI, "Confirmado" M-Pesa, generic eMola fallback,
generic 10-12-character M-Pesa fallback restricted to tokens with at least one
letter and one digit not starting with PP/CI), returns a result built from the
first matching tier with that tier's confidence and — when keyword detection
found no provider — the tier's implied provider, and returns null exactly when
no tier matches. -/
theorem C4_tier_priority (m : Str) :
    (extractTransactionCode m = none ↔
      emolaMatchA (jsToUpper m) = none ∧ emolaMatchB (jsToUpper m) = none ∧
      mpesaConfirmedMatch m = none ∧ emolaGenericMatch (jsToUpper m) = none ∧
      mpesaFallbackValid (jsToUpper m) = [])
    ∧ (∀ tok, emolaMatchA (jsToUpper m) = some tok →
        extractTransactionCode m = some ⟨tok,
          if detectPaymentMethod m ≠ .unknown then detectPaymentMethod m else .emola, .high⟩)
    ∧ (∀ tok, emolaMatchA (jsToUpper m) = none → emolaMatchB (jsToUpper m) = some tok →
        extractTransactionCode m = some ⟨tok,
          if detectPaymentMethod m ≠ .unknown then detectPaymentMethod m else .emola, .high⟩)
    ∧ (∀ tok, emolaMatchA (jsToUpper m) = none → emolaMatchB (jsToUpper m) = none →
        mpesaConfirmedMatch m = some tok →
        extractTransactionCode m = some ⟨jsToUpper tok,
          if detectPaymentMethod m ≠ .unknown then detectPaymentMethod m else .mpesa, .high⟩)
    ∧ (∀ tok, emolaMatchA (jsToUpper m) = none → emolaMatchB (jsToUpper m) = none →
        mpesaConfirmedMatch m = none → emolaGenericMatch (jsToUpper m) = some tok →
        extractTransactionCode m = some ⟨tok,
          if detectPaymentMethod m ≠ .unknown then detectPaymentMethod m else .emola, .medium⟩)
    ∧ (∀ tok rest, emolaMatchA (jsToUpper m) = none → emolaMatchB (jsToUpper m) = none →
        mpesaConfirmedMatch m = none → emolaGenericMatch (jsToUpper m) = none →
        mpesaFallbackValid (jsToUpper m) = tok :: rest →
        extractTransactionCode m = some ⟨tok,
          if detectPaymentMethod m ≠ .unknown then detectPaymentMethod m else .mpesa, .medium⟩)
    ∧ (∀ tok ∈ mpesaFallbackValid (jsToUpper m),
        tok.any isUpperAZ = true ∧ tok.any jsIsDigit = true ∧
          tok.take 2 ≠ str "PP" ∧ tok.take 2 ≠ str "CI" ∧
          10 ≤ tok.length ∧ tok.length ≤ 12) := by
  refine ⟨⟨?_, ?_⟩, ?_, ?_, ?_, ?_, ?_, ?_⟩
  · intro h
    cases hA : emolaMatchA (jsToUpper m) with
    | some tok => simp [extractTransactionCode, hA] at h
    | none =>
      cases hB : emolaMatchB (jsToUpper m) with
      | some tok => simp [extractTransactionCode, hA, hB] at h
      | none =>
        cases hC : mpesaConfirmedMatch m with
        | some tok => simp [extractTransactionCode, hA, hB, hC] at h
        | none =>
          cases hG : emolaGenericMatch (jsToUpper m) with
          | some tok => simp [extractTransactionCode, hA, hB, hC, hG] at h
          | none =>
            cases hV : mpesaFallbackValid (jsToUpper m) with
            | cons tok rest => simp [extractTransactionCode, hA, hB, hC, hG, hV] at h
            | nil => exact ⟨rfl, rfl, rfl, rfl, rfl⟩
  · rintro ⟨hA, hB, hC, hG, hV⟩
    simp [extractTransactionCode, hA, hB, hC, hG, hV]
  · intro tok hA
    simp [extractTransactionCode, hA]
  · intro tok hA hB
    simp [extractTransactionCode, hA, hB]
  · intro tok hA hB hC
    simp [extractTransactionCode, hA, hB, hC]
  · intro tok hA hB hC hG
    simp [extractTransactionCode, hA, hB, hC, hG]
  · intro tok rest hA hB hC hG hV
    simp [extractTransactionCode, hA, hB, hC, hG, hV]
  · intro tok htok
    obtain ⟨hmem1, hcond⟩ := List.mem_filter.mp htok
    obtain ⟨hmem2, hlen⟩ := List.mem_filter.mp hmem1
    simp only [Bool.and_eq_true, Bool.not_eq_true', Bool.or_eq_false_iff,
      decide_eq_false_iff_not, decide_eq_true_eq] at hcond hlen
    exact ⟨hcond.1.1, hcond.1.2, hcond.2.1, hcond.2.2, hlen.1, hlen.2⟩

/-- C4 witness: the second conjunct applied to a message that is exactly an
eMola pattern-A code (no provider keyword present, so the implied provider
emola is used, with high confidence). -/
theorem C4_tier_priority_witness :
    emolaMatchA (jsToUpper (str "PP260116.2026.W22156")) = some (str "PP260116.2026.W22156") ∧
      extractTransactionCode (str "PP260116.2026.W22156") =
        some ⟨str "PP260116.2026.W22156", .emola, .high⟩ :=
  ⟨by decide, by
    have h := (C4_tier_priority (str "PP260116.2026.W22156")).2.1
      (str "PP260116.2026.W22156") (by decide)
    rw [h]
    decide⟩

/-! ## Amount extraction (paymentCodeExtractor.ts lines 51-54, 153-169) -/

/-- `String.prototype.replace(',', '.')`: only the first comma is replaced. -/
def replaceFirstComma : Str → Str
  | [] => []
  | c :: t => if c = ',' then '.' :: t else c :: replaceFirstComma t

/-- `parseFloat` on the decimal fragment produced by the amount groups:
optional sign, then digits with an optional fractional part; trailing
non-numeric characters are ignored. -/
def parseFloatJS (s : Str) : Option ℚ :=
  let t := s.dropWhile isSpaceJS
  let neg := t.head? = some '-'
  let t2 := if t.head? = some '-' || t.head? = some '+' then t.drop 1 else t
  let intDigits := t2.takeWhile jsIsDigit
  let rest := t2.drop intDigits.length
  let fracDigits :=
    match rest with
    | '.' :: fr => fr.takeWhile jsIsDigit
    | _ => []
  if intDigits.isEmpty && fracDigits.isEmpty then none
  else
    let v : ℚ := (natFromDigits intDigits : ℚ) +
      (natFromDigits fracDigits : ℚ) / (10 ^ fracDigits.length : ℕ)
    some (if neg then -v else v)

/-- matchAll-style iteration: `tryAt` attempts a match at the current position,
returning the captured group and the remainder after the whole match; on a
match, `step` either produces the final answer or the scan resumes after the
match; otherwise the scan advances one character.  Every match of the patterns
used here consumes at least one character, so fuel `s.length + 1` suffices. -/
def scanMatches (tryAt : Str → Option (Str × Str)) (step : Str → Option α) :
    Nat → Str → Option α
  | 0, _ => none
  | fuel + 1, s =>
    match tryAt s with
    | some (g, rest) =>
      match step g with
      | some a => some a
      | none => scanMatches tryAt step fuel rest
    | none =>
      match s with
      | [] => none
      | _ :: t => scanMatches tryAt step fuel t

/-- `\s*` then the literal `MT` (case-insensitively). -/
def checkMT (s : Str) : Option Str :=
  let r := s.dropWhile isSpaceJS
  match r with
  | a :: b :: rest => if a.toLower = 'm' && b.toLower = 't' then some rest else none
  | _ => none

/-- The optional greedy `(?:[.,]\d{1,2})?` of AMOUNT_PATTERNS[0], followed by
`\s*MT`: try two fractional digits, then one, then no fraction. -/
def amount1Frac (intPart : Str) (rest : Str) : Option (Str × Str) :=
  match rest with
  | sep :: r2 =>
    if sep = '.' || sep = ',' then
      let fd := r2.takeWhile jsIsDigit
      let tryf : Nat → Option (Str × Str) := fun fk =>
        if 1 ≤ fk ∧ fk ≤ fd.length then
          (checkMT (r2.drop fk)).map (fun rest2 => (intPart ++ sep :: fd.take fk, rest2))
        else none
      match tryf (min 2 fd.length) with
      | some pr => some pr
      | none =>
        match tryf 1 with
        | some pr => some pr
        | none => (checkMT rest).map (fun rest2 => (intPart, rest2))
    else (checkMT rest).map (fun rest2 => (intPart, rest2))
  | [] => (checkMT rest).map (fun rest2 => (intPart, rest2))

/-- Backtracking over the greedy `\d{1,6}` of AMOUNT_PATTERNS[0]. -/
def amount1K (s : Str) (digits : Str) : Nat → Option (Str × Str)
  | 0 => none
  | k + 1 =>
    match amount1Frac (digits.take (k + 1)) (s.drop (k + 1)) with
    | some pr => some pr
    | none => amount1K s digits k

/-- Match of `/(\d{1,6}(?:[.,]\d{1,2})?)\s*MT/gi` at the current position. -/
def tryAmount1At (s : Str) : Option (Str × Str) :=
  let digits := s.takeWhile jsIsDigit
  if digits.isEmpty then none
  else amount1K s digits (min 6 digits.length)

def amountKeywords : List Str :=
  [str "transferiste", str "recebeste", str "enviaste", str "valor", str "montante"]

def matchKeywordCI (kws : List Str) (s : Str) : Option Str :=
  match kws with
  | [] => none
  | kw :: rest => if startsWithCI kw s then some (s.drop kw.length) else matchKeywordCI rest s

/-- Match of the second amount pattern
`/(?:transferiste|recebeste|enviaste|valor|montante)\s*[:\s]*(\d{1,6}(?:[.,]\d{1,2})?)/gi`
at the current position (nothing follows the group, so the greedy quantifiers
never backtrack). -/
def tryAmount2At (s : Str) : Option (Str × Str) :=
  match matchKeywordCI amountKeywords s with
  | none => none
  | some r1 =>
    let r2 := r1.dropWhile isSpaceJS
    let r3 := r2.dropWhile (fun c => c = ':' || isSpaceJS c)
    let digits := r3.takeWhile jsIsDigit
    if digits.isEmpty then none
    else
      let intPart := digits.take 6
      let r4 := r3.drop intPart.length
      match r4 with
      | sep :: r5 =>
        if sep = '.' || sep = ',' then
          let fd := r5.takeWhile jsIsDigit
          if fd.isEmpty then some (intPart, r4)
          else some (intPart ++ sep :: fd.take 2, r5.drop (min 2 fd.length))
        else some (intPart, r4)
      | [] => some (intPart, [])

/-- The loop body of `extractAmount`: normalize the comma, parse, accept if the
value is a positive number. -/
def amountStep (g : Str) : Option ℚ :=
  match parseFloatJS (replaceFirstComma g) with
  | some v => if 0 < v then some v else none
  | none => none

/-- `extractAmount` from paymentCodeExtractor.ts (lines 153-169). -/
def extractAmount (message : Str) : Option ℚ :=
  match scanMatches tryAmount1At amountStep (message.length + 1) message with
  | some v => some v
  | none => scanMatches tryAmount2At amountStep (message.length + 1) message

/-! ## Recipient-phone extraction (paymentCodeExtractor.ts lines 61-65, 175-197) -/

/-- The `(?:para|p\/)` alternation (case-insensitive). -/
def matchParaKw (s : Str) : Option Str :=
  if startsWithCI (str "para") s then some (s.drop 4)
  else if startsWithCI (str "p/") s then some (s.drop 2)
  else none

/-- The `(?:destino|para)` alternation (case-insensitive). -/
def matchDestinoKw (s : Str) : Option Str :=
  if startsWithCI (str "destino") s then some (s.drop 7)
  else if startsWithCI (str "para") s then some (s.drop 4)
  else none

/-- `(\d{n})`: exactly `n` digits (more may follow unconsumed). -/
def takeNDigits (n : Nat) (s : Str) : Option (Str × Str) :=
  let digits := s.takeWhile jsIsDigit
  if n ≤ digits.length then some (digits.take n, s.drop n) else none

/-- The optional greedy `(?:\+?258)?` followed by the given continuation:
alternatives "+258", "258", then nothing, with backtracking. -/
def opt258 (s : Str) (tail : Str → Option (Str × Str)) : Option (Str × Str) :=
  match (if (str "+258").isPrefixOf s then tail (s.drop 4) else none) with
  | some pr => some pr
  | none =>
    match (if (str "258").isPrefixOf s then tail (s.drop 3) else none) with
    | some pr => some pr
    | none => tail s

/-- Match of `/(?:para|p\/)\s*(?:\+?258)?\s*(\d{9})/gi` at the current position. -/
def tryRecip1At (s : Str) : Option (Str × Str) :=
  match matchParaKw s with
  | none => none
  | some r1 => opt258 (r1.dropWhile isSpaceJS) (fun r3 => takeNDigits 9 (r3.dropWhile isSpaceJS))

/-- Match of `/(?:para|p\/)\s*(\d{12})/gi` at the current position. -/
def tryRecip2At (s : Str) : Option (Str × Str) :=
  match matchParaKw s with
  | none => none
  | some r1 => takeNDigits 12 (r1.dropWhile isSpaceJS)

/-- Match of `/(?:destino|para)\s*[:=]?\s*(?:\+?258)?(\d{9})/gi` at the current
position. -/
def tryRecip3At (s : Str) : Option (Str × Str) :=
  match matchDestinoKw s with
  | none => none
  | some r1 =>
    let r2 := r1.dropWhile isSpaceJS
    let r3 :=
      match r2 with
      | c :: t => if c = ':' || c = '=' then t else r2
      | [] => r2
    opt258 (r3.dropWhile isSpaceJS) (fun r5 => takeNDigits 9 r5)

/-- The loop body of `extractRecipientPhone`: strip non-digits from the group,
prepend 258 to a bare 9-digit number, and accept only the strict
12-digit/258-prefixed shape. -/
def recipientStep (g : Str) : Option Str :=
  let phone0 := g.filter jsIsDigit
  let phone := if phone0.length = 9 then str "258" ++ phone0 else phone0
  if phone.length = 12 ∧ phone.take 3 = str "258" then some phone else none

/-- `extractRecipientPhone` from paymentCodeExtractor.ts (lines 175-197). -/
def extractRecipientPhone (message : Str) : Option Str :=
  match scanMatches tryRecip1At recipientStep (message.length + 1) message with
  | some p => some p
  | none =>
    match scanMatches tryRecip2At recipientStep (message.length + 1) message with
    | some p => some p
    | none => scanMatches tryRecip3At recipientStep (message.length + 1) message

lemma recipientStep_shape (g p : Str) (h : recipientStep g = some p) :
    p.length = 12 ∧ p.take 3 = str "258" ∧ p.all jsIsDigit = true := by
  simp only [recipientStep] at h
  by_cases h9 : (g.filter jsIsDigit).length = 9
  · rw [if_pos h9] at h
    split_ifs at h with hc
    injection h with h'
    subst h'
    refine ⟨hc.1, hc.2, ?_⟩
    simp only [List.all_append, Bool.and_eq_true, List.all_eq_true]
    exact ⟨by decide, fun c hcmem => (List.mem_filter.mp hcmem).2⟩
  · rw [if_neg h9] at h
    split_ifs at h with hc
    injection h with h'
    subst h'
    refine ⟨hc.1, hc.2, ?_⟩
    simp only [List.all_eq_true]
    exact fun c hcmem => (List.mem_filter.mp hcmem).2

lemma scanMatches_recipientStep_shape (tryAt : Str → Option (Str × Str)) (fuel : Nat)
    (s p : Str) (h : scanMatches tryAt recipientStep fuel s = some p) :
    p.length = 12 ∧ p.take 3 = str "258" ∧ p.all jsIsDigit = true := by
  induction fuel generalizing s with
  | zero => simp [scanMatches] at h
  | succ n ih =>
    simp only [scanMatches] at h
    cases htry : tryAt s with
    | some pr =>
      obtain ⟨g, rest⟩ := pr
      rw [htry] at h
      dsimp only at h
      cases hstep : recipientStep g with
      | some a =>
        rw [hstep] at h
        dsimp only at h
        injection h with h'
        subst h'
        exact recipientStep_shape g _ hstep
      | none =>
        rw [hstep] at h
        dsimp only at h
        exact ih rest h
    | none =>
      rw [htry] at h
      dsimp only at h
      cases s with
      | nil => simp at h
      | cons c t => exact ih t h

/-- C7: `extractRecipientPhone` returns either null or a string of exactly 12
digits starting with "258" (a bare 9-digit match is prefixed with "258"
first); it never returns a partially-normalized phone value. -/
theorem C7_recipient_phone_invariant (m : Str) :
    extractRecipientPhone m = none ∨
      ∃ p, extractRecipientPhone m = some p ∧ p.length = 12 ∧ p.take 3 = str "258" ∧
        p.all jsIsDigit = true := by
  cases hr : extractRecipientPhone m with
  | none => exact Or.inl rfl
  | some p =>
    refine Or.inr ⟨p, rfl, ?_⟩
    rw [extractRecipientPhone] at hr
    cases h1 : scanMatches tryRecip1At recipientStep (m.length + 1) m with
    | some q =>
      rw [h1] at hr
      injection hr with h'
      subst h'
      exact scanMatches_recipientStep_shape _ _ _ _ h1
    | none =>
      rw [h1] at hr
      cases h2 : scanMatches tryRecip2At recipientStep (m.length + 1) m with
      | some q =>
        rw [h2] at hr
        injection hr with h'
        subst h'
        exact scanMatches_recipientStep_shape _ _ _ _ h2
      | none =>
        rw [h2] at hr
        exact scanMatches_recipientStep_shape _ _ _ _ hr

/-! ## extractPaymentData (paymentCodeExtractor.ts lines 236-258) -/

/-- `extractPaymentData`: note that `else if (preferredMethod)` treats any
provided method (including 'unknown', a non-empty string) as truthy. -/
def extractPaymentData (message : Str) (preferredMethod : Option PaymentMethod) :
    ExtractedPaymentData :=
  let detectedMethod := detectPaymentMethod message
  let code := extractTransactionCode message
  let amount := extractAmount message
  let phone := extractRecipientPhone message
  let method : PaymentMethod :=
    if detectedMethod ≠ .unknown then detectedMethod
    else
      match code with
      | some c =>
        if c.method ≠ .unknown then c.method
        else
          match preferredMethod with
          | some pm => pm
          | none => .unknown
      | none =>
        match preferredMethod with
        | some pm => pm
        | none => .unknown
  ⟨code, amount, phone, method⟩

/-! ## Global regex state (C8)

The module-level pattern objects carrying the `g` flag own a mutable
`lastIndex` cursor.  `RegexStates` makes that state explicit; the `S`-suffixed
functions thread it exactly as the ECMAScript operations used by the source do:
`String.prototype.match` with a `g` regex sets `lastIndex` to 0 before
scanning (the stored value is never read) and leaves it at 0, and the
matchAll call sites first assign `pattern.lastIndex = 0` and then iterate a
fresh `new RegExp(pattern)` clone whose cursor is internal. -/

structure RegexStates where
  emolaA : Nat
  emolaB : Nat
  emolaGeneric : Nat
  mpesaFallback : Nat
  amount1 : Nat
  amount2 : Nat
  recip1 : Nat
  recip2 : Nat
  recip3 : Nat
  deriving DecidableEq

/-- `String.prototype.match` with a `g`-flagged regex (first match consumed by
the caller): lastIndex is reset to 0 before the scan, so the incoming value is
never read, and it is left at 0. -/
def jsStringMatchG (matcher : Str → Option Str) (s : Str) (_lastIndex : Nat) :
    Option Str × Nat :=
  (matcher s, 0)

/-- Same for a call site that consumes the whole match list. -/
def jsStringMatchAllG (matcher : Str → List Str) (s : Str) (_lastIndex : Nat) :
    List Str × Nat :=
  (matcher s, 0)

def extractTransactionCodeS (st : RegexStates) (message : Str) :
    Option ExtractedCode × RegexStates :=
  let upperMessage := jsToUpper message
  let detectedMethod := detectPaymentMethod message
  let (a, liA) := jsStringMatchG emolaMatchA upperMessage st.emolaA
  let st := { st with emolaA := liA }
  match a with
  | some tok =>
    (some ⟨tok, if detectedMethod ≠ .unknown then detectedMethod else .emola, .high⟩, st)
  | none =>
    let (b, liB) := jsStringMatchG emolaMatchB upperMessage st.emolaB
    let st := { st with emolaB := liB }
    match b with
    | some tok =>
      (some ⟨tok, if detectedMethod ≠ .unknown then detectedMethod else .emola, .high⟩, st)
    | none =>
      -- MPESA_PATTERN_CONFIRMED carries no g flag and keeps no cursor
      match mpesaConfirmedMatch message with
      | some tok =>
        (some ⟨jsToUpper tok,
          if detectedMethod ≠ .unknown then detectedMethod else .mpesa, .high⟩, st)
      | none =>
        let (gm, liG) := jsStringMatchG emolaGenericMatch upperMessage st.emolaGeneric
        let st := { st with emolaGeneric := liG }
        match gm with
        | some tok =>
          (some ⟨tok, if detectedMethod ≠ .unknown then detectedMethod else .emola, .medium⟩, st)
        | none =>
          let (fbList, liF) := jsStringMatchAllG mpesaFallbackMatches upperMessage st.mpesaFallback
          let st := { st with mpesaFallback := liF }
          match fbList.filter fun code =>
              code.any isUpperAZ && code.any jsIsDigit &&
                !(decide (code.take 2 = str "PP") || decide (code.take 2 = str "CI")) with
          | tok :: _ =>
            (some ⟨tok, if detectedMethod ≠ .unknown then detectedMethod else .mpesa, .medium⟩, st)
          | [] => (none, st)

def extractAmountS (st : RegexStates) (message : Str) : Option ℚ × RegexStates :=
  let st := { st with amount1 := 0 }
  match scanMatches tryAmount1At amountStep (message.length + 1) message with
  | some v => (some v, st)
  | none =>
    let st := { st with amount2 := 0 }
    (scanMatches tryAmount2At amountStep (message.length + 1) message, st)

def extractRecipientPhoneS (st : RegexStates) (message : Str) : Option Str × RegexStates :=
  let st := { st with recip1 := 0 }
  match scanMatches tryRecip1At recipientStep (message.length + 1) message with
  | some p => (some p, st)
  | none =>
    let st := { st with recip2 := 0 }
    match scanMatches tryRecip2At recipientStep (message.length + 1) message with
    | some p => (some p, st)
    | none =>
      let st := { st with recip3 := 0 }
      (scanMatches tryRecip3At recipientStep (message.length + 1) message, st)

def extractPaymentDataS (st : RegexStates) (message : Str)
    (preferredMethod : Option PaymentMethod) : ExtractedPaymentData × RegexStates :=
  let detectedMethod := detectPaymentMethod message
  let (code, st1) := extractTransactionCodeS st message
  let (amount, st2) := extractAmountS st1 message
  let (phone, st3) := extractRecipientPhoneS st2 message
  let method : PaymentMethod :=
    if detectedMethod ≠ .unknown then detectedMethod
    else
      match code with
      | some c =>
        if c.method ≠ .unknown then c.method
        else
          match preferredMethod with
          | some pm => pm
          | none => .unknown
      | none =>
        match preferredMethod with
        | some pm => pm
        | none => .unknown
  (⟨code, amount, phone, method⟩, st3)

lemma extractTransactionCodeS_fst (st : RegexStates) (m : Str) :
    (extractTransactionCodeS st m).1 = extractTransactionCode m := by
  simp only [extractTransactionCodeS, extractTransactionCode, jsStringMatchG, jsStringMatchAllG]
  cases emolaMatchA (jsToUpper m) with
  | some tok => rfl
  | none =>
    cases emolaMatchB (jsToUpper m) with
    | some tok => rfl
    | none =>
      cases mpesaConfirmedMatch m with
      | some tok => rfl
      | none =>
        cases emolaGenericMatch (jsToUpper m) with
        | some tok => rfl
        | none =>
          cases hV : mpesaFallbackValid (jsToUpper m) with
          | nil =>
            simp only [mpesaFallbackValid] at hV
            rw [hV]
          | cons tok rest =>
            simp only [mpesaFallbackValid] at hV
            rw [hV]

lemma extractAmountS_fst (st : RegexStates) (m : Str) :
    (extractAmountS st m).1 = extractAmount m := by
  simp only [extractAmountS, extractAmount]
  cases scanMatches tryAmount1At amountStep (m.length + 1) m <;> rfl

lemma extractRecipientPhoneS_fst (st : RegexStates) (m : Str) :
    (extractRecipientPhoneS st m).1 = extractRecipientPhone m := by
  simp only [extractRecipientPhoneS, extractRecipientPhone]
  cases scanMatches tryRecip1At recipientStep (m.length + 1) m with
  | some p => rfl
  | none =>
    cases scanMatches tryRecip2At recipientStep (m.length + 1) m <;> rfl

lemma extractPaymentDataS_fst (st : RegexStates) (m : Str) (pm : Option PaymentMethod) :
    (extractPaymentDataS st m pm).1 = extractPaymentData m pm := by
  rcases hS : extractTransactionCodeS st m with ⟨code, st1⟩
  have hc : code = extractTransactionCode m := by
    have h := extractTransactionCodeS_fst st m
    rw [hS] at h
    exact h
  rcases hA : extractAmountS st1 m with ⟨amount, st2⟩
  have ha : amount = extractAmount m := by
    have h := extractAmountS_fst st1 m
    rw [hA] at h
    exact h
  rcases hP : extractRecipientPhoneS st2 m with ⟨phone, st3⟩
  have hp : phone = extractRecipientPhone m := by
    have h := extractRecipientPhoneS_fst st2 m
    rw [hP] at h
    exact h
  simp only [extractPaymentDataS, extractPaymentData, hS, hA, hP, hc, ha, hp]

/-- C8: extraction is a pure, deterministic function of its input, unaffected
by the global regexes' mutable lastIndex state: the result is the same from any
two initial states, equals the state-free function, and a second call (in the
state left by the first) returns the same result as the first. -/
theorem C8_extract_deterministic :
    (∀ (st st' : RegexStates) (m : Str) (pm : Option PaymentMethod),
        (extractPaymentDataS st m pm).1 = (extractPaymentDataS st' m pm).1)
    ∧ (∀ (st : RegexStates) (m : Str) (pm : Option PaymentMethod),
        (extractPaymentDataS st m pm).1 = extractPaymentData m pm)
    ∧ (∀ (st : RegexStates) (m : Str) (pm : Option PaymentMethod),
        (extractPaymentDataS (extractPaymentDataS st m pm).2 m pm).1 =
          (extractPaymentDataS st m pm).1) :=
  ⟨fun st st' m pm => (extractPaymentDataS_fst st m pm).trans
      (extractPaymentDataS_fst st' m pm).symm,
    extractPaymentDataS_fst,
    fun st m pm => (extractPaymentDataS_fst _ m pm).trans
      (extractPaymentDataS_fst st m pm).symm⟩
